import Mathlib

/-!
Shallow embedding of `src/myasm.py`: a single-file assembler for a 16-bit
toy ISA (format `[Op:2][Mod:6][Src:4][Dst:4]`) plus a byte-oriented serial
transmitter.  Python strings are modelled as `List Char` (all inputs of
interest are ASCII); the unbounded Python int is modelled as `Int`;
a raised exception is modelled as the `Except.error` branch.
-/

instance {ε α : Type} [DecidableEq ε] [DecidableEq α] : DecidableEq (Except ε α)
  | .error e₁, .error e₂ =>
    if h : e₁ = e₂ then isTrue (by simp [h]) else isFalse (by simp [h])
  | .error _, .ok _ => isFalse (by simp)
  | .ok _, .error _ => isFalse (by simp)
  | .ok a₁, .ok a₂ =>
    if h : a₁ = a₂ then isTrue (by simp [h]) else isFalse (by simp [h])

namespace MyAsm

/-- Python whitespace for `str.strip` / `str.split` (ASCII subset). -/
def isPySpace (c : Char) : Bool :=
  c = ' ' || c = '\t' || c = '\n' || c = '\x0d' || c = '\x0b' || c = '\x0c'

/-- Python str.upper on one ASCII character. -/
def pyUpperChar (c : Char) : Char :=
  if 'a' ≤ c ∧ c ≤ 'z' then Char.ofNat (c.toNat - 32) else c

/-- Python line.strip(): drop leading and trailing whitespace. -/
def pyStrip (cs : List Char) : List Char :=
  ((cs.dropWhile isPySpace).reverse.dropWhile isPySpace).reverse

/-- Python line.upper() (ASCII). -/
def pyUpper (cs : List Char) : List Char := cs.map pyUpperChar

/-- Python line.replace of each comma by a space. -/
def replaceCommas (cs : List Char) : List Char :=
  cs.map (fun c => if c = ',' then ' ' else c)

/-- Helper for str.split(): accumulate the current token (reversed). -/
def splitWsAux : List Char → List Char → List (List Char)
  | [], acc => if acc = [] then [] else [acc.reverse]
  | c :: cs, acc =>
    if isPySpace c then
      if acc = [] then splitWsAux cs [] else acc.reverse :: splitWsAux cs []
    else splitWsAux cs (c :: acc)

/-- Python s.split() with no argument: split on whitespace runs, no empty tokens. -/
def splitWs (cs : List Char) : List (List Char) := splitWsAux cs []

/-- Python line.startswith for a single-character marker. -/
def startsWithChar (cs : List Char) (m : Char) : Bool :=
  match cs with
  | [] => false
  | c :: _ => c = m

/-- The numeric value of one digit character, if valid in `base`
(Python accepts both letter cases; after upper() only capitals occur). -/
def charDigit (base : Nat) (c : Char) : Option Nat :=
  let v :=
    if '0' ≤ c ∧ c ≤ '9' then some (c.toNat - '0'.toNat)
    else if 'A' ≤ c ∧ c ≤ 'Z' then some (c.toNat - 'A'.toNat + 10)
    else if 'a' ≤ c ∧ c ≤ 'z' then some (c.toNat - 'a'.toNat + 10)
    else none
  match v with
  | some d => if d < base then some d else none
  | none => none

/-- Digits after the first one: the Python grammar allows a single
underscore between two digits. -/
def digitsLoop (base : Nat) : List Char → Nat → Option Nat
  | [], acc => some acc
  | ['_'], _ => none
  | '_' :: c :: cs, acc =>
    match charDigit base c with
    | some d => digitsLoop base cs (acc * base + d)
    | none => none
  | c :: cs, acc =>
    match charDigit base c with
    | some d => digitsLoop base cs (acc * base + d)
    | none => none

/-- A non-empty digit string in `base` (underscores only between digits). -/
def parseDigits (base : Nat) : List Char → Option Nat
  | [] => none
  | c :: cs =>
    match charDigit base c with
    | some d => digitsLoop base cs d
    | none => none

/-- Split an optional leading sign from a numeric literal. -/
def splitSign : List Char → Int × List Char
  | '-' :: r => (-1, r)
  | '+' :: r => (1, r)
  | r => (1, r)

/-- Python int(s): optional sign, then decimal digits (tokens produced by
split() carry no surrounding whitespace, so it is not modelled). -/
def pyInt (cs : List Char) : Option Int :=
  let (sign, rest) := splitSign cs
  match parseDigits 10 rest with
  | some n => some (sign * n)
  | none => none

/-- Digits after a 0x or 0o or 0b marker: Python also permits one
underscore directly after the marker, as in 0x_1f. -/
def parsePrefixed (base : Nat) : List Char → Option Nat
  | '_' :: r => parseDigits base r
  | r => parseDigits base r

/-- Python int(s, 0): sniff a 0x or 0o or 0b marker (either letter case),
else decimal; a decimal with a leading zero is only legal when it denotes 0. -/
def pyInt0 (cs : List Char) : Option Int :=
  let (sign, rest) := splitSign cs
  match rest with
  | '0' :: p :: r =>
    if p = 'x' ∨ p = 'X' then (parsePrefixed 16 r).map (sign * Int.ofNat ·)
    else if p = 'o' ∨ p = 'O' then (parsePrefixed 8 r).map (sign * Int.ofNat ·)
    else if p = 'b' ∨ p = 'B' then (parsePrefixed 2 r).map (sign * Int.ofNat ·)
    else
      match parseDigits 10 ('0' :: p :: r) with
      | some 0 => some 0
      | _ => none
  | _ =>
    match parseDigits 10 rest with
    | some n => some (sign * n)
    | none => none

/-- Python `<<` on an unbounded int with a non-negative shift. -/
def pyShl (x : Int) (k : Nat) : Int := x * 2 ^ k

/-- Bitwise or of Python on unbounded ints: twos complement, where
`-(n+1)` has the bit pattern of NOT n; a AND NOT b on `Nat` is written as
`a - (a &&& b)` (clearing the shared bits). -/
def pyOr : Int → Int → Int
  | .ofNat m, .ofNat n => .ofNat (m ||| n)
  | .ofNat m, .negSucc n => .negSucc (n - (n &&& m))
  | .negSucc m, .ofNat n => .negSucc (m - (m &&& n))
  | .negSucc m, .negSucc n => .negSucc (m &&& n)

/-- Bitwise and of Python on unbounded ints (twos complement, as in `pyOr`). -/
def pyAnd : Int → Int → Int
  | .ofNat m, .ofNat n => .ofNat (m &&& n)
  | .ofNat m, .negSucc n => .ofNat (m - (m &&& n))
  | .negSucc m, .ofNat n => .ofNat (n - (n &&& m))
  | .negSucc m, .negSucc n => .negSucc (m ||| n)

/-- Python `>>` (arithmetic shift = floor division). -/
def pyShr (x : Int) (k : Nat) : Int := Int.fdiv x (2 ^ k)

/-- `(opcode << 14) | (mod << 8) | (src << 4) | dst`. -/
def pack (opcode md src dst : Int) : Int :=
  pyOr (pyOr (pyOr (pyShl opcode 14) (pyShl md 8)) (pyShl src 4)) dst

/-- The exceptions assemble_line can raise: an access parts[i] past the
end (IndexError), an int() whose argument does not parse (ValueError),
the explicit per-op raise of ValueError in the range checks, and the
explicit raise of ValueError on an unknown instruction. -/
inductive AsmError where
  | indexError
  | valueErrorInt (s : List Char)
  | invalidOperands (op : String)
  | unknownInstruction (op : List Char)
deriving DecidableEq, Repr

/-- Model of a parts[i] access: Python raises IndexError when `i` is out of range. -/
def getPart (parts : List (List Char)) (i : Nat) : Except AsmError (List Char) :=
  match parts.get? i with
  | some t => .ok t
  | none => .error .indexError

/-- Model of int(s) where a parse failure raises ValueError. -/
def pyIntE (cs : List Char) : Except AsmError Int :=
  match pyInt cs with
  | some v => .ok v
  | none => .error (.valueErrorInt cs)

/-- Model of int(s, 0) where a parse failure raises ValueError. -/
def pyInt0E (cs : List Char) : Except AsmError Int :=
  match pyInt0 cs with
  | some v => .ok v
  | none => .error (.valueErrorInt cs)

/-- The skip test of assemble_line on the normalized line: blank, or a
comment starting with a hash or a semicolon. -/
def isSkipCond (l : List Char) : Bool :=
  l = [] || startsWithChar l '#' || startsWithChar l ';'

/-- Convert one assembly line to a 16-bit instruction (assemble_line).
Here `.ok none` is the Python return None (skipped line); `.ok (some w)` is a
returned instruction; `.error e` is a raised exception. -/
def assemble_line (line : String) : Except AsmError (Option Int) :=
  let l := pyUpper (pyStrip line.data)
  if isSkipCond l then .ok none
  else
    let parts := splitWs (replaceCommas l)
    match parts.get? 0 with
    | none => .error .indexError
    | some op =>
      if op = "MOV".data then do
        let p1 ← getPart parts 1
        let p2 ← getPart parts 2
        let dst ← pyIntE (p1.drop 1)
        let src ← pyIntE (p2.drop 1)
        if dst > 15 ∨ src > 15 then .error (.invalidOperands "MOV")
        else .ok (some (pack 0 0 src dst))
      else if op = "ADD".data then do
        let p1 ← getPart parts 1
        let p2 ← getPart parts 2
        let dst ← pyIntE (p1.drop 1)
        let src ← pyIntE (p2.drop 1)
        if dst > 15 ∨ src > 15 then .error (.invalidOperands "ADD")
        else .ok (some (pack 0 1 src dst))
      else if op = "XOR".data then do
        let p1 ← getPart parts 1
        let p2 ← getPart parts 2
        let dst ← pyIntE (p1.drop 1)
        let src ← pyIntE (p2.drop 1)
        if dst > 15 ∨ src > 15 then .error (.invalidOperands "XOR")
        else .ok (some (pack 0 5 src dst))
      else if op = "ADDI".data then do
        let p1 ← getPart parts 1
        let dst ← pyIntE (p1.drop 1)
        let p2 ← getPart parts 2
        let imm ← pyInt0E p2
        if dst > 15 ∨ imm > 15 then .error (.invalidOperands "ADDI")
        else .ok (some (pack 0 16 imm dst))
      else if op = "PUSH".data then do
        let p1 ← getPart parts 1
        let reg ← pyIntE (p1.drop 1)
        if reg > 15 then .error (.invalidOperands "PUSH")
        else .ok (some (pack 1 2 0 reg))
      else if op = "POP".data then do
        let p1 ← getPart parts 1
        let reg ← pyIntE (p1.drop 1)
        if reg > 15 then .error (.invalidOperands "POP")
        else .ok (some (pack 1 3 0 reg))
      else .error (.unknownInstruction op)

/-- Loop body of assemble_file: `n` is the 1-based number of the current
line (Python enumerate(f, 1)); a raised exception is caught, reported with
its line number, and the process exits — modelled as `.error (n, e)`. -/
def assembleAux (n : Nat) : List String → Except (Nat × AsmError) (List Int)
  | [] => .ok []
  | l :: ls =>
    match assemble_line l with
    | .error e => .error (n, e)
    | .ok none => assembleAux (n + 1) ls
    | .ok (some w) =>
      match assembleAux (n + 1) ls with
      | .error e => .error e
      | .ok ws => .ok (w :: ws)

/-- Assemble an entire source (assemble_file), the file given as its list
of lines; line numbers start at 1. -/
def assemble_file (lines : List String) : Except (Nat × AsmError) (List Int) :=
  assembleAux 1 lines

/-- Externally observable actions of send_to_serial, in order: opening the
port, writing one byte to the sink, sleeping, closing the port.  Console
prints are not I/O on the sink and are not modelled. -/
inductive SerialEvent where
  | openPort (port : String) (baud : Nat)
  | writeByte (b : Int)
  | sleep (d : Rat)
  | closePort
deriving DecidableEq, Repr

/-- High byte: `(instruction >> 8) & 0xFF`. -/
def hiByte (w : Int) : Int := pyAnd (pyShr w 8) 255

/-- Low byte: `instruction & 0xFF`. -/
def loByte (w : Int) : Int := pyAnd w 255

/-- The per-instruction loop of send_to_serial: write the high byte, sleep
for `delay`, write the low byte, print (not modelled), sleep for `delay`. -/
def sendLoop (delay : Rat) : List Int → List SerialEvent
  | [] => []
  | w :: ws =>
    .writeByte (hiByte w) :: .sleep delay :: .writeByte (loByte w)
      :: .sleep delay :: sendLoop delay ws

/-- Event trace of send_to_serial: open the port, sleep 0.1 s to let it
stabilize, run the instruction loop, close the port.  Defaults in the
source: baud 115200, delay 0.1. -/
def send_to_serial (instructions : List Int) (port : String) (baud : Nat)
    (delay : Rat) : List SerialEvent :=
  .openPort port baud :: .sleep (1 / 10) :: (sendLoop delay instructions ++ [.closePort])

/-- The `__main__` flow: assemble the file, and only on success transmit;
an assembly error exits the process before any serial activity. -/
def mainRun (lines : List String) (port : String) : Except (Nat × AsmError) (List SerialEvent) :=
  match assemble_file lines with
  | .error e => .error e
  | .ok instructions => .ok (send_to_serial instructions port 115200 (1 / 10))

/-- Whether a result is a raised exception. -/
def isErr {ε α : Type} : Except ε α → Bool
  | .error _ => true
  | _ => false

/-- The word a line contributes to the program, if any. -/
def lineWord (l : String) : Option Int :=
  match assemble_line l with
  | .ok (some w) => some w
  | _ => none

/-- The skip condition of assemble_line on a raw line: blank after strip,
or a comment. -/
def isSkipLine (l : String) : Bool :=
  isSkipCond (pyUpper (pyStrip l.data))

/-- The bytes written to the sink, in order, extracted from a trace. -/
def writesOf (tr : List SerialEvent) : List Int :=
  tr.filterMap fun e =>
    match e with
    | .writeByte b => some b
    | _ => none

/-- C1: the encoder accepts the line MOV R-1, R2 — the register token R-1
is sliced to the string -1, parsed to the negative operand value -1, the
range check dst greater than 15 does not fire, and the packed word is -1,
which is negative and outside 0..2^16-1.  An operand that does not fit its
4-bit field is thus packed silently instead of raising the hard encoding
error the invariant requires. -/
theorem mov_negative_register_slips_through :
    assemble_line "MOV R-1, R2" = .ok (some (-1)) ∧
      ¬ (0 ≤ (-1 : Int) ∧ (-1 : Int) < 2 ^ 16) := by
  decide

/-- C2 counterexample: a MOV line with three operand tokens does not
produce any arity error — it is accepted, the surplus token R3 ignored,
and the word 0x0021 returned, refuting the claim that a token count
mismatch results in an ArityMismatch error. -/
theorem mov_three_operands_counterexample :
    assemble_line "MOV R1, R2, R3" = .ok (some 0x21) := by
  decide

/-- C2 amended: there is no arity check — surplus operand tokens are
silently ignored (MOV with three operands encodes exactly like MOV with
two, PUSH with two like PUSH with one), and a line with too few operand
tokens fails only with an index error from the out-of-range parts access,
not with a dedicated ArityMismatch. -/
theorem surplus_tokens_ignored :
    assemble_line "MOV R1, R2, R3" = assemble_line "MOV R1, R2" ∧
      assemble_line "PUSH R1, R2" = assemble_line "PUSH R1" ∧
      assemble_line "PUSH" = .error .indexError := by
  decide

/-- C3 counterexample: the register-position token 15 has no r prefix, yet
no BadRegister error is produced — the first character is dropped, the
remainder 5 parses as an integer, and the line encodes to 0x0025 with
destination register 5, refuting the claimed prefix check. -/
theorem bare_number_register_counterexample :
    assemble_line "MOV 15, R2" = .ok (some 0x25) := by
  decide

/-- C3 amended: a register token is parsed by unconditionally dropping its
first character and feeding the remainder to int — the r prefix is never
checked (token 15 yields register 5, token x1 yields register 1), and the
only failure is the int ValueError when the remainder is not a valid
integer. -/
theorem register_token_first_char_dropped :
    assemble_line "MOV 15, R2" = .ok (some (pack 0 0 2 5)) ∧
      assemble_line "MOV X1, R2" = .ok (some (pack 0 0 2 1)) ∧
      assemble_line "MOV RX, R2" = .error (.valueErrorInt "X".data) := by
  decide

/-- C4: assembling the two-line program MOV R1, R2 then ADD R2, R1 yields
exactly the two words 0x0021 and 0x0112, in that order. -/
theorem mov_add_program_encodes :
    assemble_file ["MOV R1, R2", "ADD R2, R1"] = .ok [0x21, 0x112] := by
  decide

/-- C6: for every mnemonic of the table, an operand value of 16 = 2^4 in a
4-bit field raises the range-check ValueError (the OperandOutOfRange of
the spec); no word is produced, so the value is never wrapped or truncated
into the packed word. -/
theorem operand_sixteen_rejected :
    assemble_line "MOV R16, R2" = .error (.invalidOperands "MOV") ∧
      assemble_line "MOV R1, R16" = .error (.invalidOperands "MOV") ∧
      assemble_line "ADD R16, R2" = .error (.invalidOperands "ADD") ∧
      assemble_line "XOR R16, R2" = .error (.invalidOperands "XOR") ∧
      assemble_line "ADDI R1, 16" = .error (.invalidOperands "ADDI") ∧
      assemble_line "PUSH R16" = .error (.invalidOperands "PUSH") ∧
      assemble_line "POP R16" = .error (.invalidOperands "POP") := by
  decide

/-- C7 counterexample: encoding ADD R15, R15 with both operands at the
boundary value 15 yields the word 0x01FF, whose bit 8 — outside both 4-bit
operand fields, which occupy bits 0..7 — is set by the constant mod field
of ADD; the word is not the operand-field-only pattern 0x00FF the claim
predicts. -/
theorem add_boundary_nonzero_constant_bits :
    assemble_line "ADD R15, R15" = .ok (some 0x1FF) ∧
      (0x1FF : Int) ≠ 0xFF ∧ (0x1FF : Nat).testBit 8 = true := by
  decide

/-- C7 amended: for every mnemonic of the table, operands at the boundary
value 15 encode successfully into a word whose operand fields are all
ones, with the remaining bits carrying the constant opcode and mod pattern
of the mnemonic (all zero only for MOV). -/
theorem boundary_operands_encode :
    assemble_line "MOV R15, R15" = .ok (some 0x00FF) ∧
      assemble_line "ADD R15, R15" = .ok (some 0x01FF) ∧
      assemble_line "XOR R15, R15" = .ok (some 0x05FF) ∧
      assemble_line "ADDI R15, 15" = .ok (some 0x10FF) ∧
      assemble_line "PUSH R15" = .ok (some 0x420F) ∧
      assemble_line "POP R15" = .ok (some 0x430F) := by
  decide

/-- A result that is not an error is an ok value. -/
lemma ok_of_not_isErr {ε α : Type} (r : Except ε α) (h : isErr r = false) :
    ∃ v, r = .ok v := by
  cases r with
  | error e => simp [isErr] at h
  | ok v => exact ⟨v, rfl⟩

/-- A successful run of the assembly loop returns exactly the words of the
lines that contribute one, in source order, whatever the starting line
number. -/
lemma assembleAux_ok_filterMap (lines : List String) :
    ∀ (n : Nat) (ws : List Int),
      assembleAux n lines = .ok ws → ws = lines.filterMap lineWord := by
  induction lines with
  | nil =>
    intro n ws h
    simp [assembleAux] at h
    simp [h.symm]
  | cons l ls ih =>
    intro n ws h
    rw [List.filterMap_cons]
    cases hl : assemble_line l with
    | error e => simp [assembleAux, hl] at h
    | ok v =>
      cases v with
      | none =>
        have h' : assembleAux (n + 1) ls = .ok ws := by simpa [assembleAux, hl] using h
        simpa [lineWord, hl] using ih (n + 1) ws h'
      | some w =>
        cases hr : assembleAux (n + 1) ls with
        | error e => simp [assembleAux, hl, hr] at h
        | ok ws' =>
          have hws : ws = w :: ws' := by
            have := h
            simp [assembleAux, hl, hr] at this
            exact this.symm
          simp [lineWord, hl, hws, ih (n + 1) ws' hr]

/-- C9: whenever assembly of a whole source succeeds, the produced program
is exactly the list of words of the contributing lines in source order,
and a line that is blank after trimming or begins with a hash or a
semicolon contributes no word, wherever it occurs. -/
theorem skipped_lines_contribute_nothing (lines : List String) (ws : List Int)
    (h : assemble_file lines = .ok ws) :
    ws = lines.filterMap lineWord ∧
      ∀ l, isSkipLine l = true → lineWord l = none := by
  refine ⟨assembleAux_ok_filterMap lines 1 ws h, ?_⟩
  intro l hs
  simp only [isSkipLine] at hs
  simp [lineWord, assemble_line, hs]

/-- Witness for C9 at a concrete source containing a comment, a blank line
and a semicolon comment around two instructions. -/
theorem skipped_lines_contribute_nothing_witness :
    [0x21, 0x4203]
        = (["# c", "", "MOV R1, R2", "; x", "PUSH R3"].filterMap lineWord) ∧
      lineWord "# COMMENT" = none := by
  have h := skipped_lines_contribute_nothing
    ["# c", "", "MOV R1, R2", "; x", "PUSH R3"] [0x21, 0x4203] (by decide)
  exact ⟨h.1, h.2 "# COMMENT" (by decide)⟩

/-- If every line before position `i` runs without an exception and line
`i` raises `e`, the assembly loop started at line number `n` stops with
the 1-based number `n + i` and the cause `e`. -/
lemma assembleAux_first_error (e : AsmError) (lines : List String) :
    ∀ (i n : Nat), i < lines.length →
      (∀ l ∈ lines.take i, isErr (assemble_line l) = false) →
      assemble_line (lines.getD i "") = .error e →
      assembleAux n lines = .error (n + i, e) := by
  induction lines with
  | nil =>
    intro i n hi
    simp at hi
  | cons l ls ih =>
    intro i n hi hpre herr
    cases i with
    | zero =>
      simp only [List.getD, List.get?, Option.getD] at herr
      simp [assembleAux, herr]
    | succ i' =>
      have h0 : isErr (assemble_line l) = false := by
        refine hpre l ?_
        simp [List.take]
      obtain ⟨v, hv⟩ := ok_of_not_isErr _ h0
      have hi' : i' < ls.length := by simpa using hi
      have hpre' : ∀ x ∈ ls.take i', isErr (assemble_line x) = false := by
        intro x hx
        refine hpre x ?_
        simp [List.take, hx]
      have herr' : assemble_line (ls.getD i' "") = .error e := by
        simpa [List.getD] using herr
      have hrec := ih i' (n + 1) hi' hpre' herr'
      have harith : n + (i' + 1) = (n + 1) + i' := by omega
      rw [harith]
      cases v with
      | none => simp [assembleAux, hv, hrec]
      | some w => simp [assembleAux, hv, hrec]

/-- C8: if the lines before position `i` raise no exception and the line
at `i` raises `e`, then assembly of the whole source aborts with the
1-based line number `i + 1` and the cause `e` verbatim, delivering no
words, and the main flow never reaches transmission, so no serial event —
in particular no byte write — is ever produced. -/
theorem first_error_aborts (lines : List String) (i : Nat) (e : AsmError)
    (port : String) (hlen : i < lines.length)
    (hpre : ∀ l ∈ lines.take i, isErr (assemble_line l) = false)
    (herr : assemble_line (lines.getD i "") = .error e) :
    assemble_file lines = .error (i + 1, e) ∧
      mainRun lines port = .error (i + 1, e) := by
  have h := assembleAux_first_error e lines i 1 hlen hpre herr
  have h1 : assemble_file lines = .error (i + 1, e) := by
    rw [assemble_file, Nat.add_comm i 1]
    exact h
  exact ⟨h1, by simp [mainRun, h1]⟩

/-- Witness for C8: an unknown mnemonic on line 3 of a 5-line source
aborts assembly citing line 3 with the original cause, and the main flow
yields no serial trace. -/
theorem first_error_aborts_witness :
    assemble_file ["MOV R1, R2", "ADD R2, R1", "FOO R1", "XOR R1, R1", "POP R3"]
        = .error (3, .unknownInstruction "FOO".data) ∧
      mainRun ["MOV R1, R2", "ADD R2, R1", "FOO R1", "XOR R1, R1", "POP R3"] "COM3"
        = .error (3, .unknownInstruction "FOO".data) :=
  first_error_aborts ["MOV R1, R2", "ADD R2, R1", "FOO R1", "XOR R1, R1", "POP R3"]
    2 (.unknownInstruction "FOO".data) "COM3" (by decide) (by decide) (by decide)

/-- The bytes of the instruction loop: high byte then low byte per word. -/
lemma writesOf_sendLoop (d : Rat) (ws : List Int) :
    writesOf (sendLoop d ws) = ws.flatMap (fun w => [hiByte w, loByte w]) := by
  induction ws with
  | nil => simp [sendLoop, writesOf]
  | cons w ws ih =>
    simp only [writesOf] at ih
    simp [sendLoop, writesOf, ih]

/-- In the instruction loop followed by the port close, every byte write
is immediately followed by a sleep of the configured delay. -/
lemma sendLoop_delay_after_write (d : Rat) (ws : List Int) :
    ∀ (n : Nat) (b : Int),
      (sendLoop d ws ++ [SerialEvent.closePort]).get? n
          = some (.writeByte b) →
      (sendLoop d ws ++ [SerialEvent.closePort]).get? (n + 1)
          = some (.sleep d) := by
  induction ws with
  | nil =>
    intro n b h
    cases n with
    | zero => simp [sendLoop] at h
    | succ m => simp [sendLoop] at h
  | cons w ws ih =>
    intro n b h
    match n with
    | 0 => simp [sendLoop]
    | 1 => simp [sendLoop] at h
    | 2 => simp [sendLoop]
    | 3 => simp [sendLoop] at h
    | (m + 4) =>
      have h' : (sendLoop d ws ++ [SerialEvent.closePort]).get? m
          = some (.writeByte b) := by
        simpa [sendLoop] using h
      simpa [sendLoop] using ih m b h'

/-- C5: for every program, the transmission trace writes each word as two
single-byte writes, most-significant byte first, in program order, and
every single byte write — including the last byte of each word — is
immediately followed by a sleep of the configured inter-byte delay. -/
theorem send_msb_first_delay_after_every_byte (instructions : List Int)
    (port : String) (baud : Nat) (delay : Rat) :
    writesOf (send_to_serial instructions port baud delay)
        = instructions.flatMap (fun w => [hiByte w, loByte w]) ∧
      ∀ (n : Nat) (b : Int),
        (send_to_serial instructions port baud delay).get? n
            = some (.writeByte b) →
        (send_to_serial instructions port baud delay).get? (n + 1)
            = some (.sleep delay) := by
  constructor
  · have hloop := writesOf_sendLoop delay instructions
    simp only [writesOf] at hloop ⊢
    simp [send_to_serial, List.filterMap_append, hloop]
  · intro n b h
    match n with
    | 0 => simp [send_to_serial] at h
    | 1 => simp [send_to_serial] at h
    | (m + 2) =>
      have h' : (sendLoop delay instructions ++ [SerialEvent.closePort]).get? m
          = some (.writeByte b) := by
        simpa [send_to_serial] using h
      simpa [send_to_serial] using sendLoop_delay_after_write delay instructions m b h'

/-- Witness for C5 on the one-word program with word 0x0021: exactly the
bytes 0x00 then 0x21 are written in that order, and the low-byte write at
trace index 4 is followed at index 5 by the configured delay. -/
theorem send_msb_first_delay_after_every_byte_witness :
    writesOf (send_to_serial [0x21] "COM3" 115200 1) = [0x00, 0x21] ∧
      (send_to_serial [0x21] "COM3" 115200 1).get? 5
          = some (.sleep 1) := by
  have h := send_msb_first_delay_after_every_byte [0x21] "COM3" 115200 1
  refine ⟨?_, ?_⟩
  · rw [h.1]
    rfl
  · exact h.2 4 0x21 rfl

/-- C10: the immediate of ADDI is parsed with int(token, 0), which sniffs
binary and octal markers besides the documented hexadecimal one — the
lines ADDI r1, 0b101 and ADDI r2, 0o17 are accepted and encoded, not
rejected as a bad immediate. -/
theorem addi_accepts_binary_and_octal :
    assemble_line "ADDI r1, 0b101" = .ok (some 0x1051) ∧
      assemble_line "ADDI r2, 0o17" = .ok (some 0x10F2) := by
  decide

end MyAsm

